import Mathlib

/-!
The `Prioritize` controller of `ogame` (src/prioritize.go).

A shallow embedding of the reentrant exclusive-access controller:
the counter `isTx`, the recorded name, the one-shot channel `taskIsDoneCh`,
`begin` / `done`, `Tx`, the operation wrappers and `FlightTime`.

Go values that live behind pointers are kept in an explicit `World`:
a store of `Prioritize` values addressed by `Ref` (the `*Prioritize`
pointers), the single `OGame` session they all point to, and a log of the
calls made on the session lock, on the session and on the channels.
-/

namespace Ogame

/-! ## Machine integers -/

/-- Two's complement wrap-around of an integer into the `int32` range. -/
def wrap32 (x : Int) : Int := (x + 2147483648) % 4294967296 - 2147483648

/-- Go `int32`: an integer in `[-2^31, 2^31)`. -/
structure Int32 where
  toInt : Int
  lo : -2147483648 ≤ toInt
  hi : toInt < 2147483648

/-- Conversion with wrap-around, as Go arithmetic on `int32` does. -/
def Int32.ofInt (x : Int) : Int32 :=
  ⟨wrap32 x, by unfold wrap32; omega, by unfold wrap32; omega⟩

/-- The `int32` zero value. -/
def Int32.zero : Int32 := ⟨0, by decide, by decide⟩

/-- Source: `atomic.AddInt32(&a, delta)`: the new value stored in `a`. -/
def Int32.add (a : Int32) (delta : Int) : Int32 := Int32.ofInt (a.toInt + delta)

/-! ## Data model -/

/-- Address of a `Prioritize` value (a `*Prioritize`). -/
abbrev Ref := Nat

/-- Go `error` values; `none` of `Option Error` is `nil`. -/
abbrev Error := String

/-- State of a `chan struct{}` that is only ever closed. -/
inductive Chan where
  | isOpen
  | isClosed
  deriving DecidableEq, Repr

/-- Research levels cached by the session. The declaration of the Go type is
outside the sources; `ImpulseDrive` is the field used in colonyShip_test.go. -/
structure Researches where
  ImpulseDrive : Int
  deriving DecidableEq, Repr

/-- The session object `*OGame` as far as prioritize.go touches it: the mutex
behind `botLock` / `botUnlock`, the cached `researches` pointer (`none` is
`nil`), and the remaining session state, kept abstract. -/
structure OGame where
  locked : Bool
  researches : Option Researches
  rest : Nat

/-- The struct `Prioritize` (prioritize.go:18-23); the field `bot` is the one
session of the `World`. -/
structure Prioritize where
  name : String
  taskIsDoneCh : Chan
  isTx : Int32

/-- Calls observed on the collaborators, in program order. -/
inductive Event where
  | lock (name : String)
  | unlock (name : String)
  | close (b : Ref)
  | session (method : String)
  deriving DecidableEq, Repr

/-- Everything the controller code reads and writes. -/
structure World where
  ctl : Ref → Prioritize
  bot : OGame
  trace : List Event

/-- Result of a call: the world it leaves, and the returned value, `none` when
the call ended in a run-time panic instead of returning. -/
structure Outcome (α : Type) where
  world : World
  ret : Option α

/-- Store a new value of the controller at `b`. -/
def World.setCtl (w : World) (b : Ref) (p : Prioritize) : World :=
  { w with ctl := Function.update w.ctl b p }

/-- The counter `b.isTx` read as an integer. -/
def World.depth (w : World) (b : Ref) : Int := (w.ctl b).isTx.toInt

/-- Modelled from the spec: `OGame.botLock` (its file is not among the
sources). "Lock(name): blocking mutual-exclusion primitive": this is the state
in which the call returns, holding the session mutex; the wait for another
holder is `beginBlocks`, in the system of two callers. -/
def OGame.botLock (bot : OGame) (_name : String) : OGame := { bot with locked := true }

/-- Modelled from the spec: `OGame.botUnlock` (its file is not among the
sources). "Unlock(name)": the session mutex is free afterwards. -/
def OGame.botUnlock (bot : OGame) (_name : String) : OGame := { bot with locked := false }

/-- The call `b.bot.botLock(name)`, logged. -/
def World.botLock (w : World) (name : String) : World :=
  { w with bot := w.bot.botLock name, trace := w.trace ++ [Event.lock name] }

/-- The call `b.bot.botUnlock(name)`, logged. -/
def World.botUnlock (w : World) (name : String) : World :=
  { w with bot := w.bot.botUnlock name, trace := w.trace ++ [Event.unlock name] }

/-- The statement `close(b.taskIsDoneCh)`, logged: closes an open channel and
panics ("close of closed channel") on a closed one. -/
def closeCh (b : Ref) (w : World) : Outcome Unit :=
  match (w.ctl b).taskIsDoneCh with
  | Chan.isOpen =>
    ⟨{ (w.setCtl b { w.ctl b with taskIsDoneCh := Chan.isClosed }) with
        trace := w.trace ++ [Event.close b] }, some ()⟩
  | Chan.isClosed => ⟨{ w with trace := w.trace ++ [Event.close b] }, none⟩

/-! ## begin / done (prioritize.go:35-50) -/

/-- Source: `func (b *Prioritize) begin(name string) *Prioritize`. -/
def begin (b : Ref) (name : String) (w : World) : Ref × World :=
  let w1 := w.setCtl b { w.ctl b with isTx := (w.ctl b).isTx.add 1 }
  if (w1.ctl b).isTx.toInt = 1 then
    let w2 := w1.setCtl b { w1.ctl b with name := name }
    (b, w2.botLock name)
  else
    (b, w1)

/-- Source: `func (b *Prioritize) done()`; the deferred `close` runs after
`botUnlock`. -/
def done (b : Ref) (w : World) : Outcome Unit :=
  let w1 := w.setCtl b { w.ctl b with isTx := (w.ctl b).isTx.add (-1) }
  if (w1.ctl b).isTx.toInt = 0 then
    closeCh b (w1.botUnlock (w1.ctl b).name)
  else
    ⟨w1, some ()⟩

/-- Source: `func (b *Prioritize) Begin() *Prioritize`. -/
def Begin (b : Ref) (w : World) : Ref × World := begin b "Tx" w

/-- Source: `func (b *Prioritize) Done()`. -/
def Done (b : Ref) (w : World) : Outcome Unit := done b w

/-- Source: `func (b *Prioritize) Tx(clb func(*Prioritize) error) error`: the deferred
`tx.Done()` runs however `clb` ends; `Tx` returns `err` only if neither `clb`
nor the deferred call panicked. -/
def Tx (b : Ref) (clb : Ref → World → Outcome (Option Error)) (w : World) :
    Outcome (Option Error) :=
  let tx := (Begin b w).1
  let r := clb tx (Begin b w).2
  let d := Done tx r.world
  ⟨d.world, match r.ret, d.ret with
    | some err, some _ => some err
    | _, _ => none⟩

/-! ## Operation wrappers (prioritize.go:60-472) -/

/-- A call of a session method on `b.bot`, logged; the method itself is outside
the sources and is a parameter. -/
def World.call {α : Type} (w : World) (method : String) (op : OGame → α × OGame) : α × World :=
  ((op w.bot).1, { w with bot := (op w.bot).2, trace := w.trace ++ [Event.session method] })

/-- The body shared by the wrappers:
`b.begin(name); defer b.done(); return b.bot.method(args)`, where `op` is the
session method applied to its arguments. -/
def wrapped {α : Type} (b : Ref) (name method : String) (op : OGame → α × OGame) (w : World) :
    Outcome α :=
  let w1 := (begin b name w).2
  let r := w1.call method op
  let d := done b r.2
  ⟨d.world, d.ret.map fun _ => r.1⟩

/-- Go `url.Values`. -/
abbrev Values := List (String × List String)

/-- Go `[]byte`. -/
abbrev Bytes := List Nat

/-- Go `CelestialID`. -/
abbrev CelestialID := Int

/-- Go `Resources`, with the fields used in the sources. -/
structure Resources where
  Metal : Int
  Crystal : Int
  Deuterium : Int
  deriving DecidableEq, Repr

/-- Source: `func (b *Prioritize) Login() error` (prioritize.go:69-73). -/
def Login (wrapLogin : OGame → Option Error × OGame) (b : Ref) (w : World) :
    Outcome (Option Error) :=
  wrapped b "Login" "wrapLogin" wrapLogin w

/-- Source: `func (b *Prioritize) GetAlliancePageContent(vals url.Values) []byte`
(prioritize.go:83-88): `pageHTML, _ := ...; return pageHTML`. -/
def GetAlliancePageContent (getAlliancePageContent : Values → OGame → (Bytes × Option Error) × OGame)
    (b : Ref) (vals : Values) (w : World) : Outcome Bytes :=
  wrapped b "GetAlliancePageContent" "getAlliancePageContent"
    (fun bot => ((getAlliancePageContent vals bot).1.1, (getAlliancePageContent vals bot).2)) w

/-- Source: `func (b *Prioritize) GetPageContent(vals url.Values) []byte`
(prioritize.go:91-96): `pageHTML, _ := ...; return pageHTML`. -/
def GetPageContent (getPageContent : Values → OGame → (Bytes × Option Error) × OGame)
    (b : Ref) (vals : Values) (w : World) : Outcome Bytes :=
  wrapped b "GetPageContent" "getPageContent"
    (fun bot => ((getPageContent vals bot).1.1, (getPageContent vals bot).2)) w

/-- Source: `func (b *Prioritize) PostPageContent(vals, payload url.Values) []byte`
(prioritize.go:100-105): `by, _ := ...; return by`. -/
def PostPageContent (postPageContent : Values → Values → OGame → (Bytes × Option Error) × OGame)
    (b : Ref) (vals payload : Values) (w : World) : Outcome Bytes :=
  wrapped b "PostPageContent" "postPageContent"
    (fun bot => ((postPageContent vals payload bot).1.1, (postPageContent vals payload bot).2)) w

/-- Source: `func (b *Prioritize) GetResources(celestialID CelestialID) (Resources, error)`
(prioritize.go:357-361). -/
def GetResources (getResources : CelestialID → OGame → (Resources × Option Error) × OGame)
    (b : Ref) (celestialID : CelestialID) (w : World) : Outcome (Resources × Option Error) :=
  wrapped b "GetResources" "getResources" (getResources celestialID) w

/-- Source: `func (b *Prioritize) FlightTime(origin, destination Coordinate, speed Speed,
ships ShipsInfos) (secs, fuel int)` (prioritize.go:437-449). `args` stands
for the four arguments; `calcFlightTime` (outside the sources) is given the
session, from which it takes its configuration, the arguments and
`*b.bot.researches`, whose dereference panics when the pointer is still nil.
On the cached branch the deferred `close` runs after the computation. -/
def FlightTime {A : Type} (getResearch : OGame → Researches × OGame)
    (calcFlightTime : OGame → A → Researches → Int × Int)
    (b : Ref) (args : A) (w : World) : Outcome (Int × Int) :=
  match w.bot.researches with
  | none =>
    let w1 := (begin b "FlightTime" w).2
    let w2 := (w1.call "getResearch" getResearch).2
    let d := done b w2
    match d.ret, d.world.bot.researches with
    | some _, some r => ⟨d.world, some (calcFlightTime d.world.bot args r)⟩
    | _, _ => ⟨d.world, none⟩
  | some r =>
    if (w.ctl b).isTx.toInt = 0 then
      let c := closeCh b w
      ⟨c.world, c.ret.map fun _ => calcFlightTime w.bot args r⟩
    else
      ⟨w, some (calcFlightTime w.bot args r)⟩

/-! ## Sequences of calls on one controller -/

/-- A call of `begin(name)` or of `done()`. -/
inductive Call where
  | begin (name : String)
  | done
  deriving DecidableEq, Repr

/-- The world after one call on the controller `b`; for a `done` that ended in
the panic of `close`, the world at the panic. -/
def Call.run (b : Ref) : Call → World → World
  | Call.begin name, w => (Ogame.begin b name w).2
  | Call.done, w => (Ogame.done b w).world

/-- The world after a sequence of calls on the controller `b`, in order, every
call being made whatever the earlier ones returned. -/
def exec (b : Ref) : List Call → World → World
  | [], w => w
  | c :: cs, w => exec b cs (c.run b w)

/-- Number of `begin` calls of a sequence not yet matched by a `done`, when
`n` were unmatched before it. -/
def unmatched : Nat → List Call → Nat
  | n, [] => n
  | n, Call.begin _ :: cs => unmatched (n + 1) cs
  | n, Call.done :: cs => unmatched (n - 1) cs

/-- Balanced sequences: every `done` is preceded by an unmatched `begin`, and
no `begin` is left unmatched at the end. -/
def balancedFrom : Nat → List Call → Bool
  | n, [] => n == 0
  | n, Call.begin _ :: cs => balancedFrom (n + 1) cs
  | 0, Call.done :: _ => false
  | n + 1, Call.done :: cs => balancedFrom n cs

/-- Largest number of simultaneously unmatched `begin` calls in a sequence. -/
def maxNest : Nat → List Call → Nat
  | n, [] => n
  | n, Call.begin _ :: cs => max n (maxNest (n + 1) cs)
  | n, Call.done :: cs => max n (maxNest (n - 1) cs)

/-- Number of outermost transactions of a sequence: the `done` calls that
match a `begin` made with nothing unmatched. -/
def outermost : Nat → List Call → Nat
  | _, [] => 0
  | n, Call.begin _ :: cs => outermost (n + 1) cs
  | n, Call.done :: cs => (if n = 1 then 1 else 0) + outermost (n - 1) cs

/-- Number of `close` statements executed on the channel of `b`. -/
def closes (b : Ref) (t : List Event) : Nat := t.count (Event.close b)

/-- Number of `botLock` calls in a log. -/
def locks : List Event → Nat
  | [] => 0
  | Event.lock _ :: t => locks t + 1
  | _ :: t => locks t

/-- Number of `botUnlock` calls in a log. -/
def unlocks : List Event → Nat
  | [] => 0
  | Event.unlock _ :: t => unlocks t + 1
  | _ :: t => unlocks t

/-- A fresh controller store and session: every counter 0, every channel open,
the mutex free, nothing cached, nothing logged. -/
def World.fresh : World :=
  ⟨fun _ => ⟨"", Chan.isOpen, Int32.zero⟩, ⟨false, none, 0⟩, []⟩

/-- Largest `int32`. -/
def Int32.maxValue : Int32 := ⟨2147483647, by decide, by decide⟩

/-- Smallest `int32`. -/
def Int32.minValue : Int32 := ⟨-2147483648, by decide, by decide⟩

/-- The `int32` one. -/
def Int32.one : Int32 := ⟨1, by decide, by decide⟩

/-- A fresh world in which the controller at address 0 has counter `d` and
channel state `ch`. -/
def World.sample (d : Int32) (ch : Chan) : World :=
  World.fresh.setCtl 0 ⟨"outer", ch, d⟩

/-- The sequence of `n` nested `begin` calls followed by their `n` `done`
calls. -/
def deepNest (n : Nat) : List Call :=
  List.replicate n (Call.begin "Tx") ++ List.replicate n Call.done

/-- A world like `World.sample d ch` whose session has research levels cached. -/
def World.cached (d : Int32) (ch : Chan) : World :=
  { World.sample d ch with bot := ⟨false, some ⟨6⟩, 0⟩ }

/-- A public operation invoked on the handle inside a transaction: one of the
wrappers (its returned value dropped), or `FlightTime`. -/
inductive NestedOp where
  | wrapper (name method : String) (op : OGame → OGame)
  | flightTime (getResearch : OGame → Researches × OGame)

/-- One nested invocation on the handle `tx`. -/
def NestedOp.run (tx : Ref) : NestedOp → World → Outcome Unit
  | NestedOp.wrapper name method op, w => wrapped tx name method (fun bot => ((), op bot)) w
  | NestedOp.flightTime getResearch, w =>
    ⟨(FlightTime getResearch (fun _ (_ : Unit) _ => (0, 0)) tx () w).world,
      (FlightTime getResearch (fun _ (_ : Unit) _ => (0, 0)) tx () w).ret.map fun _ => ()⟩

/-- The invocations of a callback body, in order; a panic ends the body. -/
def runNested (tx : Ref) : List NestedOp → World → Outcome Unit
  | [], w => ⟨w, some ()⟩
  | o :: os, w =>
    match (o.run tx w).ret with
    | some _ => runNested tx os (o.run tx w).world
    | none => ⟨(o.run tx w).world, none⟩

/-- A callback for `Tx` that invokes the given operations on its handle and
returns `nil`. -/
def nestedClb (ops : List NestedOp) : Ref → World → Outcome (Option Error) :=
  fun tx w => ⟨(runNested tx ops w).world, (runNested tx ops w).ret.map fun _ => none⟩

/-! ## Two callers -/

/-- The two concurrent callers. -/
inductive Caller where
  | first
  | second
  deriving DecidableEq, Repr

/-- Where a caller stands in its wrapped operation
`begin; delegated session call; done`. -/
inductive PC where
  | idle
  | entered
  | worked
  | finished
  deriving DecidableEq, Repr

/-- The shared world and the position of each caller. -/
structure Sys where
  world : World
  pc : Caller → PC

/-- A caller is between its `begin` and its `done`. -/
def Sys.inside (s : Sys) (c : Caller) : Bool :=
  s.pc c == PC.entered || s.pc c == PC.worked

/-- Both callers are between their `begin` and their `done`. -/
def Sys.bothInside (s : Sys) : Bool := s.inside Caller.first && s.inside Caller.second

/-- Modelled from the spec: the blocking of `botLock` ("which may itself block
until the previous outermost transaction calls Unlock"). A `begin` on `b`
cannot complete while it is the outermost one (the incremented counter is 1)
and the session mutex is held. -/
def beginBlocks (b : Ref) (w : World) : Bool :=
  decide (((w.ctl b).isTx.add 1).toInt = 1) && w.bot.locked

/-- One atomic step of caller `c`, who uses the controller `handle c`, the
wrapper name `name c` and the session method `op c`: its `begin` (no step
while that blocks), then its session call, then its `done`. -/
def Sys.step (handle : Caller → Ref) (name : Caller → String) (op : Caller → OGame → OGame)
    (c : Caller) (s : Sys) : Sys :=
  match s.pc c with
  | PC.idle =>
    if beginBlocks (handle c) s.world then s
    else ⟨(begin (handle c) (name c) s.world).2, Function.update s.pc c PC.entered⟩
  | PC.entered =>
    ⟨(s.world.call (name c) (fun bot => ((), op c bot))).2, Function.update s.pc c PC.worked⟩
  | PC.worked => ⟨(done (handle c) s.world).world, Function.update s.pc c PC.finished⟩
  | PC.finished => s

/-- The system after a schedule: the callers take steps in the listed order. -/
def Sys.run (handle : Caller → Ref) (name : Caller → String) (op : Caller → OGame → OGame) :
    List Caller → Sys → Sys
  | [], s => s
  | c :: cs, s => Sys.run handle name op cs (Sys.step handle name op c s)

/-- Both callers idle on the world `w`. -/
def Sys.start (w : World) : Sys := ⟨w, fun _ => PC.idle⟩

/-- The invariant behind mutual exclusion for callers on distinct controllers:
a caller outside its operation has counter 0 on its controller; a caller
inside has counter 1, the session mutex is held, and the other caller is
outside. -/
def Sys.Inv (handle : Caller → Ref) (s : Sys) : Prop :=
  (∀ c, s.inside c = false → s.world.depth (handle c) = 0) ∧
    (∀ c, s.inside c = true →
      s.world.depth (handle c) = 1 ∧ s.world.bot.locked = true ∧
        ∀ d, d ≠ c → s.inside d = false)

end Ogame

namespace Ogame

/-! ## Arithmetic of the counter -/

theorem Int32.add_toInt (a : Int32) (d : Int) : (a.add d).toInt = wrap32 (a.toInt + d) := rfl

theorem Int32.add_one_eq_one (a : Int32) : (a.add 1).toInt = 1 ↔ a.toInt = 0 := by
  have := a.lo; have := a.hi
  rw [Int32.add_toInt]; unfold wrap32; omega

theorem Int32.sub_one_eq_zero (a : Int32) : (a.add (-1)).toInt = 0 ↔ a.toInt = 1 := by
  have := a.lo; have := a.hi
  rw [Int32.add_toInt]; unfold wrap32; omega

/-! ## Effect of `begin` and `done` on each component of the world -/

theorem begin_eq_outer (b : Ref) (name : String) (w : World) (h : w.depth b = 0) :
    begin b name w =
      (b, { ctl := Function.update w.ctl b
                    { name := name, taskIsDoneCh := (w.ctl b).taskIsDoneCh,
                      isTx := (w.ctl b).isTx.add 1 },
            bot := w.bot.botLock name,
            trace := w.trace ++ [Event.lock name] }) := by
  have h1 : ((w.ctl b).isTx.add 1).toInt = 1 := (Int32.add_one_eq_one _).2 h
  unfold begin
  simp [World.setCtl, World.botLock, h1]

theorem begin_eq_nested (b : Ref) (name : String) (w : World) (h : w.depth b ≠ 0) :
    begin b name w =
      (b, { ctl := Function.update w.ctl b
                    { name := (w.ctl b).name, taskIsDoneCh := (w.ctl b).taskIsDoneCh,
                      isTx := (w.ctl b).isTx.add 1 },
            bot := w.bot,
            trace := w.trace }) := by
  have h1 : ¬ ((w.ctl b).isTx.add 1).toInt = 1 := fun e => h ((Int32.add_one_eq_one _).1 e)
  unfold begin
  simp [World.setCtl, h1]

theorem done_eq_outer (b : Ref) (w : World) (h : w.depth b = 1) :
    done b w =
      ⟨{ ctl := Function.update w.ctl b
                  { name := (w.ctl b).name, taskIsDoneCh := Chan.isClosed,
                    isTx := (w.ctl b).isTx.add (-1) },
         bot := w.bot.botUnlock (w.ctl b).name,
         trace := w.trace ++ [Event.unlock (w.ctl b).name, Event.close b] },
       if (w.ctl b).taskIsDoneCh = Chan.isOpen then some () else none⟩ := by
  have h1 : ((w.ctl b).isTx.add (-1)).toInt = 0 := (Int32.sub_one_eq_zero _).2 h
  unfold done closeCh
  simp only [World.setCtl, World.botUnlock, Function.update_same, h1, if_true]
  cases hc : (w.ctl b).taskIsDoneCh
  · simp
  · simp only [Outcome.mk.injEq, World.mk.injEq, List.append_assoc, List.singleton_append,
      and_true, reduceCtorEq, if_false]

theorem done_eq_nested (b : Ref) (w : World) (h : w.depth b ≠ 1) :
    done b w =
      ⟨{ ctl := Function.update w.ctl b
                  { name := (w.ctl b).name, taskIsDoneCh := (w.ctl b).taskIsDoneCh,
                    isTx := (w.ctl b).isTx.add (-1) },
         bot := w.bot,
         trace := w.trace }, some ()⟩ := by
  have h1 : ¬ ((w.ctl b).isTx.add (-1)).toInt = 0 := fun e => h ((Int32.sub_one_eq_zero _).1 e)
  unfold done
  simp [World.setCtl, h1]

theorem begin_fst (b : Ref) (name : String) (w : World) : (begin b name w).1 = b := by
  by_cases h : w.depth b = 0
  · rw [begin_eq_outer b name w h]
  · rw [begin_eq_nested b name w h]

theorem begin_isTx (b : Ref) (name : String) (w : World) :
    ((begin b name w).2.ctl b).isTx = (w.ctl b).isTx.add 1 := by
  by_cases h : w.depth b = 0
  · rw [begin_eq_outer b name w h]; simp
  · rw [begin_eq_nested b name w h]; simp

theorem begin_depth (b : Ref) (name : String) (w : World) :
    (begin b name w).2.depth b = wrap32 (w.depth b + 1) := by
  simp [World.depth, begin_isTx, Int32.add_toInt]

theorem begin_chan (b : Ref) (name : String) (w : World) :
    ((begin b name w).2.ctl b).taskIsDoneCh = (w.ctl b).taskIsDoneCh := by
  by_cases h : w.depth b = 0
  · rw [begin_eq_outer b name w h]; simp
  · rw [begin_eq_nested b name w h]; simp

theorem begin_other (b : Ref) (name : String) (w : World) (c : Ref) (h : c ≠ b) :
    (begin b name w).2.ctl c = w.ctl c := by
  by_cases h0 : w.depth b = 0
  · rw [begin_eq_outer b name w h0]; simp [Function.update_noteq h]
  · rw [begin_eq_nested b name w h0]; simp [Function.update_noteq h]

theorem done_isTx (b : Ref) (w : World) :
    ((done b w).world.ctl b).isTx = (w.ctl b).isTx.add (-1) := by
  by_cases h : w.depth b = 1
  · rw [done_eq_outer b w h]; simp
  · rw [done_eq_nested b w h]; simp

theorem done_depth (b : Ref) (w : World) :
    (done b w).world.depth b = wrap32 (w.depth b - 1) := by
  simp [World.depth, done_isTx, Int32.add_toInt, sub_eq_add_neg]

theorem done_name (b : Ref) (w : World) :
    ((done b w).world.ctl b).name = (w.ctl b).name := by
  by_cases h : w.depth b = 1
  · rw [done_eq_outer b w h]; simp
  · rw [done_eq_nested b w h]; simp

theorem done_other (b : Ref) (w : World) (c : Ref) (h : c ≠ b) :
    (done b w).world.ctl c = w.ctl c := by
  by_cases h1 : w.depth b = 1
  · rw [done_eq_outer b w h1]; simp [Function.update_noteq h]
  · rw [done_eq_nested b w h1]; simp [Function.update_noteq h]

theorem begin_trace (b : Ref) (name : String) (w : World) :
    (begin b name w).2.trace = if w.depth b = 0 then w.trace ++ [Event.lock name] else w.trace := by
  by_cases h : w.depth b = 0
  · rw [begin_eq_outer b name w h]; simp [h]
  · rw [begin_eq_nested b name w h]; simp [h]

theorem begin_name (b : Ref) (name : String) (w : World) :
    ((begin b name w).2.ctl b).name = if w.depth b = 0 then name else (w.ctl b).name := by
  by_cases h : w.depth b = 0
  · rw [begin_eq_outer b name w h]; simp [h]
  · rw [begin_eq_nested b name w h]; simp [h]

theorem begin_bot (b : Ref) (name : String) (w : World) :
    (begin b name w).2.bot = if w.depth b = 0 then w.bot.botLock name else w.bot := by
  by_cases h : w.depth b = 0
  · rw [begin_eq_outer b name w h]; simp [h]
  · rw [begin_eq_nested b name w h]; simp [h]

theorem done_trace (b : Ref) (w : World) :
    (done b w).world.trace =
      if w.depth b = 1 then w.trace ++ [Event.unlock (w.ctl b).name, Event.close b]
      else w.trace := by
  by_cases h : w.depth b = 1
  · rw [done_eq_outer b w h]; simp [h]
  · rw [done_eq_nested b w h]; simp [h]

theorem done_bot (b : Ref) (w : World) :
    (done b w).world.bot = if w.depth b = 1 then w.bot.botUnlock (w.ctl b).name else w.bot := by
  by_cases h : w.depth b = 1
  · rw [done_eq_outer b w h]; simp [h]
  · rw [done_eq_nested b w h]; simp [h]

theorem done_chan (b : Ref) (w : World) :
    ((done b w).world.ctl b).taskIsDoneCh =
      if w.depth b = 1 then Chan.isClosed else (w.ctl b).taskIsDoneCh := by
  by_cases h : w.depth b = 1
  · rw [done_eq_outer b w h]; simp [h]
  · rw [done_eq_nested b w h]; simp [h]

theorem done_ret (b : Ref) (w : World) :
    (done b w).ret =
      if w.depth b = 1 ∧ (w.ctl b).taskIsDoneCh = Chan.isClosed then none else some () := by
  by_cases h : w.depth b = 1
  · rw [done_eq_outer b w h]
    cases hc : (w.ctl b).taskIsDoneCh <;> simp [h]
  · rw [done_eq_nested b w h]; simp [h]

/-! ## C9: the `begin` step -/

/-- C9, as stated, fails at the top of the `int32` range: with the counter at
2147483647 a `begin` leaves it at -2147483648, not one higher. -/
theorem begin_step_counterexample :
    (World.sample Int32.maxValue Chan.isOpen).depth 0 = 2147483647 ∧
      (begin 0 "Tx" (World.sample Int32.maxValue Chan.isOpen)).2.depth 0 = -2147483648 ∧
      ¬ ((begin 0 "Tx" (World.sample Int32.maxValue Chan.isOpen)).2.depth 0 =
          (World.sample Int32.maxValue Chan.isOpen).depth 0 + 1) := by
  decide

/-- C9 (amended): for every world, controller `b` and name, with the counter
below the `int32` maximum, `begin(name)` returns `b`, raises the counter by
exactly 1, and, when the counter was 0, records `name` and calls `botLock`
once with it, while for any other counter value it calls nothing and keeps
the recorded name. -/
theorem begin_step (b : Ref) (name : String) (w : World) (h : w.depth b < 2147483647) :
    (begin b name w).1 = b ∧
      (begin b name w).2.depth b = w.depth b + 1 ∧
      ((begin b name w).2.ctl b).name = (if w.depth b = 0 then name else (w.ctl b).name) ∧
      (begin b name w).2.trace =
        (if w.depth b = 0 then w.trace ++ [Event.lock name] else w.trace) := by
  refine ⟨begin_fst b name w, ?_, begin_name b name w, begin_trace b name w⟩
  rw [begin_depth]
  have := (w.ctl b).isTx.lo
  unfold World.depth at *
  unfold wrap32; omega

/-- Witness of `begin_step`: an outermost and a nested `begin`. -/
theorem begin_step_witness :
    (World.fresh.depth 0 < 2147483647 ∧
        (begin 0 "GetShips" World.fresh).2.trace = [Event.lock "GetShips"]) ∧
      ((World.sample Int32.one Chan.isOpen).depth 0 < 2147483647 ∧
        (begin 0 "GetShips" (World.sample Int32.one Chan.isOpen)).2.depth 0 = 2) :=
  ⟨⟨by decide, (begin_step 0 "GetShips" World.fresh (by decide)).2.2.2⟩,
   ⟨by decide, (begin_step 0 "GetShips" (World.sample Int32.one Chan.isOpen) (by decide)).2.1⟩⟩

/-! ## C10: the `done` step -/

/-- C10, as stated, fails at the bottom of the `int32` range: with the counter
at -2147483648 a `done` leaves it at 2147483647, not one lower. -/
theorem done_step_counterexample :
    (World.sample Int32.minValue Chan.isOpen).depth 0 = -2147483648 ∧
      (done 0 (World.sample Int32.minValue Chan.isOpen)).world.depth 0 = 2147483647 ∧
      ¬ ((done 0 (World.sample Int32.minValue Chan.isOpen)).world.depth 0 =
          (World.sample Int32.minValue Chan.isOpen).depth 0 - 1) := by
  decide

/-- C10 (amended): for every world and controller `b` with the counter above
the `int32` minimum, `done` lowers the counter by exactly 1 and keeps the
recorded name; when the new counter is 0 it calls `botUnlock` once with the
recorded name and then executes `close` on the channel, which is closed
afterwards; otherwise it calls neither and leaves the channel as it is. The recorded name is the outermost one: from counter 0, an `outer`
begin, an `inner` begin and two `done` calls unlock under `outer`. -/
theorem done_step (b : Ref) (w : World) (outer inner : String)
    (h : -2147483648 < w.depth b) :
    (done b w).world.depth b = w.depth b - 1 ∧
      ((done b w).world.ctl b).name = (w.ctl b).name ∧
      (done b w).world.trace =
        (if (done b w).world.depth b = 0
          then w.trace ++ [Event.unlock (w.ctl b).name, Event.close b]
          else w.trace) ∧
      ((done b w).world.ctl b).taskIsDoneCh =
        (if (done b w).world.depth b = 0 then Chan.isClosed else (w.ctl b).taskIsDoneCh) ∧
      (w.depth b = 0 →
        (exec b [Call.begin outer, Call.begin inner, Call.done, Call.done] w).trace =
          w.trace ++ [Event.lock outer, Event.unlock outer, Event.close b]) := by
  have hlo := (w.ctl b).isTx.lo
  have hhi := (w.ctl b).isTx.hi
  have hd : (done b w).world.depth b = w.depth b - 1 := by
    rw [done_depth]; unfold World.depth at *; unfold wrap32; omega
  refine ⟨hd, done_name b w, ?_, ?_, ?_⟩
  · rw [done_trace, hd]
    by_cases h1 : w.depth b = 1
    · simp [h1]
    · have : ¬ (w.depth b - 1 = 0) := by omega
      simp [h1, this]
  · rw [done_chan, hd]
    by_cases h1 : w.depth b = 1
    · simp [h1]
    · have : ¬ (w.depth b - 1 = 0) := by omega
      simp [h1, this]
  · intro h0
    have e1 : wrap32 1 = 1 := by decide
    have e2 : wrap32 2 = 2 := by decide
    simp [exec, Call.run, done_trace, begin_trace, done_depth, begin_depth, done_name,
      begin_name, h0, e1, e2]

/-- Witness of `done_step`: an outermost `done`, and the nested run from
counter 0. -/
theorem done_step_witness :
    (-2147483648 < (World.sample Int32.one Chan.isOpen).depth 0 ∧
        (done 0 (World.sample Int32.one Chan.isOpen)).world.depth 0 = 0) ∧
      (-2147483648 < World.fresh.depth 0 ∧ World.fresh.depth 0 = 0 ∧
        (exec 0 [Call.begin "EnsureFleet", Call.begin "GetShips", Call.done, Call.done]
            World.fresh).trace =
          [Event.lock "EnsureFleet", Event.unlock "EnsureFleet", Event.close 0]) :=
  ⟨⟨by decide, (done_step 0 (World.sample Int32.one Chan.isOpen) "a" "b" (by decide)).1⟩,
   ⟨by decide, by decide,
    (done_step 0 World.fresh "EnsureFleet" "GetShips" (by decide)).2.2.2.2 (by decide)⟩⟩

/-! ## Sequences of `begin` / `done` calls -/

theorem exec_append (b : Ref) (xs ys : List Call) (w : World) :
    exec b (xs ++ ys) w = exec b ys (exec b xs w) := by
  induction xs generalizing w with
  | nil => rfl
  | cons c cs ih => simp [exec, ih]

theorem le_maxNest (n : Nat) (cs : List Call) : n ≤ maxNest n cs := by
  cases cs with
  | nil => simp [maxNest]
  | cons c cs => cases c <;> simp [maxNest]

theorem run_begin_depth (b : Ref) (name : String) (w : World) (n : Nat)
    (hw : w.depth b = n) (hn : n + 1 < 2147483648) :
    ((Call.begin name).run b w).depth b = ((n + 1 : Nat) : Int) := by
  simp only [Call.run, begin_depth, hw]
  unfold wrap32; omega

theorem run_done_depth (b : Ref) (w : World) (n : Nat)
    (hw : w.depth b = ((n + 1 : Nat) : Int)) (hn : n + 1 < 2147483648) :
    (Call.done.run b w).depth b = (n : Int) := by
  simp only [Call.run, done_depth, hw]
  unfold wrap32; omega

theorem exec_take_depth (b : Ref) (cs : List Call) :
    ∀ (n : Nat) (w : World) (k : Nat), w.depth b = n → balancedFrom n cs = true →
      maxNest n cs < 2147483648 →
      (exec b (cs.take k) w).depth b = unmatched n (cs.take k) := by
  induction cs with
  | nil => intro n w k hw _ _; simpa [exec, unmatched] using hw
  | cons c cs ih =>
    intro n w k hw hb hm
    cases k with
    | zero => simpa [exec, unmatched] using hw
    | succ k =>
      cases c with
      | begin name =>
        simp only [maxNest] at hm
        simp only [balancedFrom] at hb
        have h1 := le_maxNest (n + 1) cs
        have hn : n + 1 < 2147483648 := by omega
        simp only [List.take_succ_cons, exec, unmatched]
        exact ih (n + 1) _ k (run_begin_depth b name w n hw hn) hb (by omega)
      | done =>
        cases n with
        | zero => simp [balancedFrom] at hb
        | succ n =>
          simp only [maxNest] at hm
          simp only [balancedFrom] at hb
          simp only [List.take_succ_cons, exec, unmatched, Nat.add_sub_cancel]
          exact ih n _ k (run_done_depth b w n hw (by omega)) hb
            (by simp only [Nat.add_sub_cancel] at hm; omega)

theorem unmatched_of_balanced (cs : List Call) :
    ∀ n : Nat, balancedFrom n cs = true → unmatched n cs = 0 := by
  induction cs with
  | nil => intro n h; simpa [balancedFrom, unmatched] using h
  | cons c cs ih =>
    intro n h
    cases c with
    | begin name => exact ih (n + 1) (by simpa [balancedFrom] using h)
    | done =>
      cases n with
      | zero => simp [balancedFrom] at h
      | succ n => simpa [unmatched] using ih n (by simpa [balancedFrom] using h)

theorem exec_replicate_begin (b : Ref) (name : String) (n : Nat) :
    ∀ w : World, (exec b (List.replicate n (Call.begin name)) w).depth b =
      wrap32 (w.depth b + n) := by
  induction n with
  | zero =>
    intro w
    have h1 := (w.ctl b).isTx.lo
    have h2 := (w.ctl b).isTx.hi
    simp only [List.replicate, exec, World.depth, Nat.cast_zero, add_zero]
    unfold wrap32; omega
  | succ n ih =>
    intro w
    simp only [List.replicate, exec, ih, Call.run, begin_depth, Nat.cast_succ]
    unfold wrap32; omega

theorem balancedFrom_replicate_done (m : Nat) :
    balancedFrom m (List.replicate m Call.done) = true := by
  induction m with
  | zero => rfl
  | succ m ih => simpa [List.replicate, balancedFrom] using ih

theorem balancedFrom_deepNest (n : Nat) :
    ∀ m : Nat, balancedFrom m
      (List.replicate n (Call.begin "Tx") ++ List.replicate (m + n) Call.done) = true := by
  induction n with
  | zero => intro m; simpa using balancedFrom_replicate_done m
  | succ n ih =>
    intro m
    have := ih (m + 1)
    rw [show m + (n + 1) = m + 1 + n by omega]
    simpa only [List.replicate, List.cons_append, balancedFrom] using this

/-! ## C4: the depth invariant -/

/-- C4, as stated, fails for a balanced sequence that nests 2^31 deep: after
its first 2^31 calls, all `begin`, the counter has wrapped to -2^31. -/
theorem depth_invariant_counterexample :
    World.fresh.depth 0 = 0 ∧
      balancedFrom 0 (deepNest 2147483648) = true ∧
      (exec 0 ((deepNest 2147483648).take 2147483648) World.fresh).depth 0 = -2147483648 ∧
      ¬ (0 ≤ (exec 0 ((deepNest 2147483648).take 2147483648) World.fresh).depth 0) := by
  have hb : balancedFrom 0 (deepNest 2147483648) = true := by
    have := balancedFrom_deepNest 2147483648 0
    rw [Nat.zero_add] at this
    exact this
  have ht : (deepNest 2147483648).take 2147483648 =
      List.replicate 2147483648 (Call.begin "Tx") := by
    unfold deepNest
    rw [List.take_append_of_le_length (by rw [List.length_replicate])]
    rw [List.take_of_length_le (by rw [List.length_replicate])]
  have hd : (exec 0 ((deepNest 2147483648).take 2147483648) World.fresh).depth 0 =
      -2147483648 := by
    rw [ht, exec_replicate_begin]
    decide
  refine ⟨by decide, hb, hd, ?_⟩
  rw [hd]; decide

/-- C4 (amended): from counter 0, for every balanced sequence of `begin` /
`done` calls that never has 2^31 or more `begin` calls unmatched, after every
prefix of the sequence the counter equals the number of unmatched `begin`
calls (so it is never negative and is positive exactly while one is
unmatched), and after the whole sequence it is 0. -/
theorem depth_invariant (b : Ref) (w : World) (cs : List Call) (k : Nat)
    (h0 : w.depth b = 0) (hb : balancedFrom 0 cs = true) (hm : maxNest 0 cs < 2147483648) :
    0 ≤ (exec b (cs.take k) w).depth b ∧
      (exec b (cs.take k) w).depth b = unmatched 0 (cs.take k) ∧
      (0 < (exec b (cs.take k) w).depth b ↔ 0 < unmatched 0 (cs.take k)) ∧
      (exec b cs w).depth b = 0 := by
  have hk := exec_take_depth b cs 0 w k (by simpa using h0) hb hm
  have hall := exec_take_depth b cs 0 w cs.length (by simpa using h0) hb hm
  rw [List.take_length, unmatched_of_balanced cs 0 hb] at hall
  refine ⟨?_, hk, ?_, by simpa using hall⟩
  · rw [hk]; exact Int.ofNat_nonneg _
  · rw [hk]; exact Int.ofNat_pos

/-- Witness of `depth_invariant`: a transaction with two nested operations,
observed after its second call. -/
theorem depth_invariant_witness :
    World.fresh.depth 0 = 0 ∧
      (exec 0 ([Call.begin "Tx", Call.begin "GetShips", Call.done, Call.begin "SendFleet",
          Call.done, Call.done].take 2) World.fresh).depth 0 =
        unmatched 0 ([Call.begin "Tx", Call.begin "GetShips", Call.done,
          Call.begin "SendFleet", Call.done, Call.done].take 2) :=
  ⟨by decide,
   (depth_invariant 0 World.fresh [Call.begin "Tx", Call.begin "GetShips", Call.done,
      Call.begin "SendFleet", Call.done, Call.done] 2 (by decide) (by decide) (by decide)).2.1⟩

/-! ## C5: closes of the completion signal -/

theorem run_closes (b : Ref) (c : Call) (w : World) :
    closes b (c.run b w).trace =
      closes b w.trace + (if c = Call.done ∧ w.depth b = 1 then 1 else 0) := by
  cases c with
  | begin name =>
    simp only [Call.run, begin_trace]
    by_cases h : w.depth b = 0 <;> simp [h, closes, List.count_append, List.count_cons]
  | done =>
    simp only [Call.run, done_trace]
    by_cases h : w.depth b = 1 <;> simp [h, closes, List.count_append, List.count_cons]

theorem exec_closes (b : Ref) (cs : List Call) :
    ∀ (n : Nat) (w : World), w.depth b = n → balancedFrom n cs = true →
      maxNest n cs < 2147483648 →
      closes b (exec b cs w).trace = closes b w.trace + outermost n cs := by
  induction cs with
  | nil => intro n w _ _ _; simp [exec, outermost]
  | cons c cs ih =>
    intro n w hw hb hm
    cases c with
    | begin name =>
      simp only [maxNest] at hm
      simp only [balancedFrom] at hb
      have h1 := le_maxNest (n + 1) cs
      have hn : n + 1 < 2147483648 := by omega
      simp only [exec, outermost]
      rw [ih (n + 1) _ (run_begin_depth b name w n hw hn) hb (by omega), run_closes]
      simp
    | done =>
      cases n with
      | zero => simp [balancedFrom] at hb
      | succ n =>
        simp only [maxNest, Nat.add_sub_cancel] at hm
        simp only [balancedFrom] at hb
        simp only [exec, outermost, Nat.add_sub_cancel]
        rw [ih n _ (run_done_depth b w n hw (by omega)) hb (by omega), run_closes, hw]
        have e : (((n + 1 : Nat) : Int) = 1) ↔ (n + 1 = 1) := by omega
        simp only [true_and, e]
        omega

/-- C5, as stated, fails for a balanced sequence with two outermost
transactions: the channel of the controller is closed at the first outermost
`done`, and the second outermost `done` executes `close` on it again, which
is a run-time panic. -/
theorem single_close_counterexample :
    balancedFrom 0 [Call.begin "GetPlanets", Call.done, Call.begin "GetMoons", Call.done] = true ∧
      closes 0 (exec 0 [Call.begin "GetPlanets", Call.done, Call.begin "GetMoons", Call.done]
        World.fresh).trace = 2 ∧
      ((exec 0 [Call.begin "GetPlanets", Call.done, Call.begin "GetMoons"] World.fresh).ctl 0
        ).taskIsDoneCh = Chan.isClosed ∧
      (done 0 (exec 0 [Call.begin "GetPlanets", Call.done, Call.begin "GetMoons"]
        World.fresh)).ret = none := by
  decide

/-- C5 (amended): from counter 0, for every balanced sequence of `begin` /
`done` calls with fewer than 2^31 `begin` calls unmatched at any time, `close`
is executed on the channel once per outermost transaction of the sequence:
the `k`-th call executes it exactly when it is a `done` that takes the counter
from 1 to 0, so the total is exactly one if and only if the sequence holds
exactly one outermost transaction. -/
theorem single_close (b : Ref) (w : World) (cs : List Call) (k : Nat)
    (h0 : w.depth b = 0) (hb : balancedFrom 0 cs = true) (hm : maxNest 0 cs < 2147483648) :
    closes b (exec b cs w).trace = closes b w.trace + outermost 0 cs ∧
      closes b (exec b (cs.take (k + 1)) w).trace =
        closes b (exec b (cs.take k) w).trace +
          (if cs[k]? = some Call.done ∧ (exec b (cs.take k) w).depth b = 1 then 1 else 0) ∧
      (closes b (exec b cs w).trace = closes b w.trace + 1 ↔ outermost 0 cs = 1) := by
  have htot := exec_closes b cs 0 w (by simpa using h0) hb hm
  refine ⟨htot, ?_, by rw [htot]; omega⟩
  rw [List.take_succ, exec_append]
  cases hk : cs[k]? with
  | none => simp [exec]
  | some c =>
    simp only [Option.toList, exec, run_closes, Option.some.injEq]

/-- Witness of `single_close`: one transaction with a nested operation closes
the channel once, at its last call. -/
theorem single_close_witness :
    World.fresh.depth 0 = 0 ∧
      closes 0 (exec 0 [Call.begin "Tx", Call.begin "GetShips", Call.done, Call.done]
        World.fresh).trace = closes 0 World.fresh.trace + 1 :=
  ⟨by decide,
   (single_close 0 World.fresh [Call.begin "Tx", Call.begin "GetShips", Call.done, Call.done] 3
      (by decide) (by decide) (by decide)).2.2.2 (by decide)⟩

theorem locks_append (t u : List Event) : locks (t ++ u) = locks t + locks u := by
  induction t with
  | nil => simp [locks]
  | cons e t ih =>
    cases e <;> simp [locks, ih]
    omega

theorem unlocks_append (t u : List Event) : unlocks (t ++ u) = unlocks t + unlocks u := by
  induction t with
  | nil => simp [unlocks]
  | cons e t ih =>
    cases e <;> simp [unlocks, ih]
    omega

/-! ## C7: `FlightTime` with the researches cached -/

theorem flightTime_cached_facts {A : Type} (getResearch : OGame → Researches × OGame)
    (calcFlightTime : OGame → A → Researches → Int × Int)
    (b : Ref) (args : A) (w : World) (r : Researches) (h : w.bot.researches = some r) :
    (FlightTime getResearch calcFlightTime b args w).world.trace =
        (if w.depth b = 0 then w.trace ++ [Event.close b] else w.trace) ∧
      locks (FlightTime getResearch calcFlightTime b args w).world.trace = locks w.trace ∧
      unlocks (FlightTime getResearch calcFlightTime b args w).world.trace = unlocks w.trace ∧
      (FlightTime getResearch calcFlightTime b args w).world.depth b = w.depth b ∧
      ((FlightTime getResearch calcFlightTime b args w).world.ctl b).name = (w.ctl b).name ∧
      (FlightTime getResearch calcFlightTime b args w).world.bot = w.bot := by
  have ht : (FlightTime getResearch calcFlightTime b args w).world.trace =
      (if w.depth b = 0 then w.trace ++ [Event.close b] else w.trace) := by
    unfold FlightTime closeCh World.depth
    simp only [h]
    by_cases h0 : (w.ctl b).isTx.toInt = 0
    · simp only [h0, if_true]
      cases (w.ctl b).taskIsDoneCh <;> rfl
    · simp only [h0, if_false]
  refine ⟨ht, ?_, ?_, ?_, ?_, ?_⟩
  · rw [ht]; by_cases h0 : w.depth b = 0 <;> simp [h0, locks_append, locks]
  · rw [ht]; by_cases h0 : w.depth b = 0 <;> simp [h0, unlocks_append, unlocks]
  · unfold FlightTime closeCh World.depth
    simp only [h]
    by_cases h0 : (w.ctl b).isTx.toInt = 0
    · simp only [h0, if_true]
      cases hc : (w.ctl b).taskIsDoneCh <;> simp [World.setCtl, h0]
    · simp only [h0, if_false]
  · unfold FlightTime closeCh
    simp only [h]
    by_cases h0 : (w.ctl b).isTx.toInt = 0
    · simp only [h0, if_true]
      cases hc : (w.ctl b).taskIsDoneCh <;> simp [World.setCtl]
    · simp only [h0, if_false]
  · unfold FlightTime closeCh
    simp only [h]
    by_cases h0 : (w.ctl b).isTx.toInt = 0
    · simp only [h0, if_true]
      cases hc : (w.ctl b).taskIsDoneCh <;> simp [World.setCtl]
    · simp only [h0, if_false]

theorem flightTime_cached_chan {A : Type} (getResearch : OGame → Researches × OGame)
    (calcFlightTime : OGame → A → Researches → Int × Int)
    (b : Ref) (args : A) (w : World) (r : Researches) (h : w.bot.researches = some r) :
    ((FlightTime getResearch calcFlightTime b args w).world.ctl b).taskIsDoneCh =
      (if w.depth b = 0 then Chan.isClosed else (w.ctl b).taskIsDoneCh) := by
  unfold FlightTime closeCh World.depth
  simp only [h]
  by_cases h0 : (w.ctl b).isTx.toInt = 0
  · simp only [h0, if_true]
    cases hc : (w.ctl b).taskIsDoneCh <;> simp [World.setCtl, hc]
  · simp only [h0, if_false]

/-- C7: when `b.bot.researches` is non-nil, `FlightTime` makes no `botLock` and
no `botUnlock` call (the only event it can add is a `close`), leaves the
counter, the recorded name and the session as they are, and executes `close`
on the channel, leaving it closed, exactly when the counter is 0 at the call;
with any other counter the channel is left as it is. -/
theorem flightTime_cached {A : Type} (getResearch : OGame → Researches × OGame)
    (calcFlightTime : OGame → A → Researches → Int × Int)
    (b : Ref) (args : A) (w : World) (r : Researches) (h : w.bot.researches = some r) :
    (FlightTime getResearch calcFlightTime b args w).world.trace =
        (if w.depth b = 0 then w.trace ++ [Event.close b] else w.trace) ∧
      ((FlightTime getResearch calcFlightTime b args w).world.ctl b).taskIsDoneCh =
        (if w.depth b = 0 then Chan.isClosed else (w.ctl b).taskIsDoneCh) ∧
      locks (FlightTime getResearch calcFlightTime b args w).world.trace = locks w.trace ∧
      unlocks (FlightTime getResearch calcFlightTime b args w).world.trace = unlocks w.trace ∧
      (FlightTime getResearch calcFlightTime b args w).world.depth b = w.depth b ∧
      ((FlightTime getResearch calcFlightTime b args w).world.ctl b).name = (w.ctl b).name ∧
      (FlightTime getResearch calcFlightTime b args w).world.bot = w.bot :=
  ⟨(flightTime_cached_facts getResearch calcFlightTime b args w r h).1,
   flightTime_cached_chan getResearch calcFlightTime b args w r h,
   (flightTime_cached_facts getResearch calcFlightTime b args w r h).2⟩

/-- Witness of `flightTime_cached`: outside a transaction the cached call
only closes the channel; inside one it does nothing. -/
theorem flightTime_cached_witness :
    ((World.cached Int32.zero Chan.isOpen).bot.researches = some ⟨6⟩ ∧
        (FlightTime (fun bot => (⟨6⟩, bot)) (fun _ (n : Nat) r => (r.ImpulseDrive, n)) 0 7
          (World.cached Int32.zero Chan.isOpen)).world.trace = [Event.close 0]) ∧
      ((World.cached Int32.one Chan.isOpen).bot.researches = some ⟨6⟩ ∧
        (FlightTime (fun bot => (⟨6⟩, bot)) (fun _ (n : Nat) r => (r.ImpulseDrive, n)) 0 7
          (World.cached Int32.one Chan.isOpen)).world.trace = []) :=
  ⟨⟨rfl, (flightTime_cached (fun bot => (⟨6⟩, bot)) (fun _ (n : Nat) r => (r.ImpulseDrive, n)) 0 7
      (World.cached Int32.zero Chan.isOpen) ⟨6⟩ rfl).1⟩,
   ⟨rfl, (flightTime_cached (fun bot => (⟨6⟩, bot)) (fun _ (n : Nat) r => (r.ImpulseDrive, n)) 0 7
      (World.cached Int32.one Chan.isOpen) ⟨6⟩ rfl).1⟩⟩

/-! ## C8: `FlightTime` with the researches missing -/

theorem call_trace {α : Type} (w : World) (method : String) (op : OGame → α × OGame) :
    (w.call method op).2.trace = w.trace ++ [Event.session method] ∧
      (w.call method op).2.ctl = w.ctl ∧
      (w.call method op).2.bot = (op w.bot).2 ∧
      (w.call method op).1 = (op w.bot).1 := ⟨rfl, rfl, rfl, rfl⟩

theorem call_depth {α : Type} (w : World) (method : String) (op : OGame → α × OGame) (b : Ref) :
    (w.call method op).2.depth b = w.depth b := rfl

/-- C8, as stated, fails on a controller whose channel is already closed: at
counter 0 with nothing cached, the `done` of the populate cycle executes
`close` on the closed channel and `FlightTime` ends in that panic instead of
returning a result. -/
theorem flightTime_populates_counterexample :
    (World.sample Int32.zero Chan.isClosed).depth 0 = 0 ∧
      (World.sample Int32.zero Chan.isClosed).bot.researches = none ∧
      (FlightTime (fun bot => (⟨6⟩, { bot with researches := some ⟨6⟩ }))
        (fun _ (n : Nat) r => (r.ImpulseDrive, n)) 0 7
        (World.sample Int32.zero Chan.isClosed)).ret = none := by
  decide

/-- C8 (amended): at counter 0 with the channel still open and
`b.bot.researches` nil, and with a `getResearch` that populates the cache,
`FlightTime` performs one `botLock("FlightTime")`, one `getResearch`, one
`botUnlock("FlightTime")` in that order (followed by the `close` of `done`),
returns the value computed from the fetched researches on the unlocked
session, and leaves the counter at 0; a further `FlightTime` on the resulting
world adds no `botLock`, `botUnlock` or `getResearch` (only the `close` of
the cached branch). -/
theorem flightTime_populates {A : Type} (getResearch : OGame → Researches × OGame)
    (calcFlightTime : OGame → A → Researches → Int × Int)
    (b : Ref) (args args2 : A) (w : World)
    (h0 : w.depth b = 0) (hnil : w.bot.researches = none)
    (hopen : (w.ctl b).taskIsDoneCh = Chan.isOpen)
    (hpop : ∀ bot : OGame, (getResearch bot).2.researches ≠ none) :
    (FlightTime getResearch calcFlightTime b args w).world.trace =
        w.trace ++ [Event.lock "FlightTime", Event.session "getResearch",
          Event.unlock "FlightTime", Event.close b] ∧
      (FlightTime getResearch calcFlightTime b args w).world.depth b = 0 ∧
      (FlightTime getResearch calcFlightTime b args w).world.bot =
        (getResearch (w.bot.botLock "FlightTime")).2.botUnlock "FlightTime" ∧
      (FlightTime getResearch calcFlightTime b args w).world.bot.researches ≠ none ∧
      (FlightTime getResearch calcFlightTime b args w).ret =
        (FlightTime getResearch calcFlightTime b args w).world.bot.researches.map
          (calcFlightTime (FlightTime getResearch calcFlightTime b args w).world.bot args) ∧
      (FlightTime getResearch calcFlightTime b args2
          (FlightTime getResearch calcFlightTime b args w).world).world.trace =
        (FlightTime getResearch calcFlightTime b args w).world.trace ++ [Event.close b] := by
  have hb := begin_eq_outer b "FlightTime" w h0
  have h1 : wrap32 (0 + 1) = 1 := by decide
  have hd1 : ((begin b "FlightTime" w).2.call "getResearch" getResearch).2.depth b = 1 := by
    rw [call_depth, begin_depth, h0, h1]
  have hdone := done_eq_outer b _ hd1
  have hres : ((getResearch (w.bot.botLock "FlightTime")).2.botUnlock "FlightTime").researches
      ≠ none := hpop (w.bot.botLock "FlightTime")
  have hw : FlightTime getResearch calcFlightTime b args w =
      ⟨(done b ((begin b "FlightTime" w).2.call "getResearch" getResearch).2).world,
        ((getResearch (w.bot.botLock "FlightTime")).2.botUnlock "FlightTime").researches.map
          (calcFlightTime ((getResearch (w.bot.botLock "FlightTime")).2.botUnlock "FlightTime")
            args)⟩ := by
    unfold FlightTime
    simp only [hnil]
    rw [hdone]
    simp only [hb, World.call, Function.update_same, hopen, if_true]
    cases hr : ((getResearch (w.bot.botLock "FlightTime")).2.botUnlock "FlightTime").researches with
    | none => exact absurd hr hres
    | some r => simp [hr]
  have hworld : (FlightTime getResearch calcFlightTime b args w).world =
      (done b ((begin b "FlightTime" w).2.call "getResearch" getResearch).2).world := by
    rw [hw]
  have hbot : (FlightTime getResearch calcFlightTime b args w).world.bot =
      (getResearch (w.bot.botLock "FlightTime")).2.botUnlock "FlightTime" := by
    rw [hworld, hdone]; simp [hb, World.call]
  have htrace : (FlightTime getResearch calcFlightTime b args w).world.trace =
      w.trace ++ [Event.lock "FlightTime", Event.session "getResearch",
        Event.unlock "FlightTime", Event.close b] := by
    rw [hworld, hdone]; simp [hb, World.call]
  have hdepth : (FlightTime getResearch calcFlightTime b args w).world.depth b = 0 := by
    rw [hworld, done_depth, hd1]; decide
  refine ⟨htrace, hdepth, hbot, by rw [hbot]; exact hres, ?_, ?_⟩
  · rw [hbot]; rw [hw]
  · cases hr : (FlightTime getResearch calcFlightTime b args w).world.bot.researches with
    | none => rw [hbot] at hr; exact absurd hr hres
    | some r =>
      rw [(flightTime_cached_facts getResearch calcFlightTime b args2 _ r hr).1, hdepth]
      simp

/-- Witness of `flightTime_populates` on a fresh world. -/
theorem flightTime_populates_witness :
    World.fresh.depth 0 = 0 ∧ World.fresh.bot.researches = none ∧
      (World.fresh.ctl 0).taskIsDoneCh = Chan.isOpen ∧
      (FlightTime (fun bot => (⟨6⟩, { bot with researches := some ⟨6⟩ }))
        (fun _ (n : Nat) r => (r.ImpulseDrive, n)) 0 7 World.fresh).world.trace =
        World.fresh.trace ++ [Event.lock "FlightTime", Event.session "getResearch",
          Event.unlock "FlightTime", Event.close 0] :=
  ⟨by decide, rfl, rfl,
   (flightTime_populates (fun bot => (⟨6⟩, { bot with researches := some ⟨6⟩ }))
      (fun _ (n : Nat) r => (r.ImpulseDrive, n)) 0 7 8 World.fresh (by decide) rfl rfl
      (fun _ => by simp)).1⟩

/-! ## C3: the operation wrappers -/

theorem wrap32_succ_pred (x : Int) (h1 : -2147483648 ≤ x) (h2 : x < 2147483648) :
    wrap32 (wrap32 (x + 1) - 1) = x := by
  unfold wrap32; omega

theorem wrap32_succ_eq_one (x : Int) (h1 : -2147483648 ≤ x) (h2 : x < 2147483648) :
    wrap32 (x + 1) = 1 ↔ x = 0 := by
  unfold wrap32; omega

theorem wrapped_facts {α : Type} (b : Ref) (name method : String) (op : OGame → α × OGame)
    (w : World) :
    (wrapped b name method op w).world.depth b = w.depth b ∧
      (wrapped b name method op w).world.trace =
        (if w.depth b = 0
          then w.trace ++ [Event.lock name, Event.session method, Event.unlock name,
            Event.close b]
          else w.trace ++ [Event.session method]) ∧
      (wrapped b name method op w).ret =
        (if w.depth b = 0 ∧ (w.ctl b).taskIsDoneCh = Chan.isClosed then none
          else some (op (begin b name w).2.bot).1) ∧
      (w.depth b = 0 → (wrapped b name method op w).world.bot.locked = false) := by
  have hlo := (w.ctl b).isTx.lo
  have hhi := (w.ctl b).isTx.hi
  have hone := wrap32_succ_eq_one (w.depth b) hlo hhi
  have hd : ((begin b name w).2.call method op).2.depth b = wrap32 (w.depth b + 1) := by
    rw [call_depth, begin_depth]
  have hw : (wrapped b name method op w).world =
      (done b ((begin b name w).2.call method op).2).world := rfl
  have hr : (wrapped b name method op w).ret =
      (done b ((begin b name w).2.call method op).2).ret.map
        (fun _ => ((begin b name w).2.call method op).1) := rfl
  refine ⟨?_, ?_, ?_, ?_⟩
  · rw [hw, done_depth, hd]; exact wrap32_succ_pred _ hlo hhi
  · rw [hw, done_trace, hd, (call_trace _ method op).1, begin_trace,
      (call_trace _ method op).2.1, begin_name]
    by_cases h0 : w.depth b = 0
    · have : wrap32 (w.depth b + 1) = 1 := hone.2 h0
      rw [if_pos this, if_pos h0, if_pos h0, if_pos h0]
      simp
    · have : ¬ wrap32 (w.depth b + 1) = 1 := fun e => h0 (hone.1 e)
      simp [h0, this]
  · rw [hr, done_ret, hd, (call_trace _ method op).2.1, begin_chan,
      (call_trace _ method op).2.2.2]
    by_cases h0 : w.depth b = 0
    · have : wrap32 (w.depth b + 1) = 1 := hone.2 h0
      by_cases hc : (w.ctl b).taskIsDoneCh = Chan.isClosed
      · rw [if_pos ⟨this, hc⟩, if_pos ⟨h0, hc⟩]; rfl
      · rw [if_neg (fun h => hc h.2), if_neg (fun h => hc h.2)]; rfl
    · have : ¬ wrap32 (w.depth b + 1) = 1 := fun e => h0 (hone.1 e)
      simp [h0, this]
  · intro h0
    have : wrap32 (w.depth b + 1) = 1 := hone.2 h0
    rw [hw, done_bot, hd]
    simp [this, OGame.botUnlock]

/-- C3, as stated, fails in two ways. `GetAlliancePageContent`,
`GetPageContent` and `PostPageContent` return the same bytes whether the
session call returned an error or nil: the error is discarded. And a wrapper
called at counter 0 on a controller whose channel is already closed ends in
the panic of the second `close` instead of returning the session's values. -/
theorem wrapper_propagates_counterexample :
    ((GetPageContent (fun _ bot => (([60, 104], some "connection reset"), bot)) 0 []
          World.fresh).ret = some [60, 104] ∧
        (GetPageContent (fun _ bot => (([60, 104], none), bot)) 0 [] World.fresh).ret =
          some [60, 104]) ∧
      ((GetAlliancePageContent (fun _ bot => (([60, 104], some "connection reset"), bot)) 0 []
          World.fresh).ret = some [60, 104] ∧
        (GetAlliancePageContent (fun _ bot => (([60, 104], none), bot)) 0 []
          World.fresh).ret = some [60, 104]) ∧
      ((PostPageContent (fun _ _ bot => (([60, 104], some "connection reset"), bot)) 0 [] []
          World.fresh).ret = some [60, 104] ∧
        (PostPageContent (fun _ _ bot => (([60, 104], none), bot)) 0 [] []
          World.fresh).ret = some [60, 104]) ∧
      (GetResources (fun _ bot => ((⟨1, 2, 3⟩, some "invalid id"), bot)) 0 33
        (World.sample Int32.zero Chan.isClosed)).ret = none := by
  decide

/-- C3 (amended): whatever its session method returned, a wrapper of the
common shape leaves the counter as it was before the call, and a wrapper
called at counter 0 has called `botLock`, the session method and `botUnlock`
in that order and leaves the session mutex free. Called with a non-zero
counter or with the channel still open, it returns exactly the value (result
and error) its session method returned; `Login` and `GetResources` are such
wrappers, while `GetAlliancePageContent`, `GetPageContent` and
`PostPageContent` return only the bytes of the session's pair. -/
theorem wrapper_propagates {α : Type} (b : Ref) (name method : String)
    (op : OGame → α × OGame)
    (wrapLogin : OGame → Option Error × OGame)
    (getResources : CelestialID → OGame → (Resources × Option Error) × OGame)
    (celestialID : CelestialID)
    (getAlliancePageContent getPageContent : Values → OGame → (Bytes × Option Error) × OGame)
    (postPageContent : Values → Values → OGame → (Bytes × Option Error) × OGame)
    (vals payload : Values) (w : World) :
    (wrapped b name method op w).world.depth b = w.depth b ∧
      (w.depth b = 0 →
        (wrapped b name method op w).world.trace =
            w.trace ++ [Event.lock name, Event.session method, Event.unlock name,
              Event.close b] ∧
          (wrapped b name method op w).world.bot.locked = false) ∧
      (w.depth b ≠ 0 ∨ (w.ctl b).taskIsDoneCh = Chan.isOpen →
        (wrapped b name method op w).ret = some (op (begin b name w).2.bot).1 ∧
          (Login wrapLogin b w).ret = some (wrapLogin (begin b "Login" w).2.bot).1 ∧
          (GetResources getResources b celestialID w).ret =
            some (getResources celestialID (begin b "GetResources" w).2.bot).1 ∧
          (GetAlliancePageContent getAlliancePageContent b vals w).ret =
            some (getAlliancePageContent vals
              (begin b "GetAlliancePageContent" w).2.bot).1.1 ∧
          (GetPageContent getPageContent b vals w).ret =
            some (getPageContent vals (begin b "GetPageContent" w).2.bot).1.1 ∧
          (PostPageContent postPageContent b vals payload w).ret =
            some (postPageContent vals payload (begin b "PostPageContent" w).2.bot).1.1) := by
  refine ⟨(wrapped_facts b name method op w).1, ?_, ?_⟩
  · intro h0
    refine ⟨?_, (wrapped_facts b name method op w).2.2.2 h0⟩
    rw [(wrapped_facts b name method op w).2.1]; simp [h0]
  · intro hok
    have hno : ¬ (w.depth b = 0 ∧ (w.ctl b).taskIsDoneCh = Chan.isClosed) := by
      rintro ⟨h0, hc⟩
      rcases hok with h | h
      · exact h h0
      · rw [hc] at h; exact Chan.noConfusion h
    refine ⟨?_, ?_, ?_, ?_, ?_, ?_⟩
    · rw [(wrapped_facts b name method op w).2.2.1]; simp [hno]
    · unfold Login
      rw [(wrapped_facts b _ _ _ w).2.2.1]; simp [hno]
    · unfold GetResources
      rw [(wrapped_facts b _ _ _ w).2.2.1]; simp [hno]
    · unfold GetAlliancePageContent
      rw [(wrapped_facts b _ _ _ w).2.2.1]; simp [hno]
    · unfold GetPageContent
      rw [(wrapped_facts b _ _ _ w).2.2.1]; simp [hno]
    · unfold PostPageContent
      rw [(wrapped_facts b _ _ _ w).2.2.1]; simp [hno]

/-- Witness of `wrapper_propagates`: a failing `getResources` on a fresh
world. -/
theorem wrapper_propagates_witness :
    (World.fresh.depth 0 ≠ 0 ∨ (World.fresh.ctl 0).taskIsDoneCh = Chan.isOpen) ∧
      (GetResources (fun _ bot => ((⟨0, 0, 0⟩, some "invalid id"), bot)) 0 33 World.fresh).ret =
        some (⟨0, 0, 0⟩, some "invalid id") ∧
      World.fresh.depth 0 = 0 ∧
      (GetResources (fun _ bot => ((⟨0, 0, 0⟩, some "invalid id"), bot)) 0 33
        World.fresh).world.bot.locked = false :=
  ⟨Or.inr rfl,
   ((wrapper_propagates 0 "GetResources" "getResources"
      (fun bot => (((⟨0, 0, 0⟩ : Resources), (some "invalid id" : Option Error)), bot))
      (fun bot => (none, bot))
      (fun _ bot => ((⟨0, 0, 0⟩, some "invalid id"), bot)) 33
      (fun _ bot => (([], none), bot)) (fun _ bot => (([], none), bot))
      (fun _ _ bot => (([], none), bot)) [] [] World.fresh).2.2 (Or.inr rfl)).2.2.1,
   by decide,
   ((wrapper_propagates 0 "GetResources" "getResources"
      (fun bot => (((⟨0, 0, 0⟩ : Resources), (some "invalid id" : Option Error)), bot))
      (fun bot => (none, bot))
      (fun _ bot => ((⟨0, 0, 0⟩, some "invalid id"), bot)) 33
      (fun _ bot => (([], none), bot)) (fun _ bot => (([], none), bot))
      (fun _ _ bot => (([], none), bot)) [] [] World.fresh).2.1 (by decide)).2⟩

/-! ## C6: the transaction wrapper `Tx` -/

/-- C6, as stated, fails on a controller at counter 0 whose channel is already
closed: `clb` returns an error, the deferred `Done` unlocks and then executes
`close` on the closed channel, and `Tx` ends in that panic instead of
returning the error. -/
theorem tx_contract_counterexample :
    (World.sample Int32.zero Chan.isClosed).depth 0 = 0 ∧
      (Tx 0 (fun _ w => ⟨w, some (some "fleet not sent")⟩)
        (World.sample Int32.zero Chan.isClosed)).ret = none ∧
      (Tx 0 (fun _ w => ⟨w, some (some "fleet not sent")⟩)
        (World.sample Int32.zero Chan.isClosed)).world.trace =
          [Event.lock "Tx", Event.unlock "Tx", Event.close 0] := by
  decide

/-- C6 (amended): for every callback and every world, `Tx(clb)` runs
`begin("Tx")`, applies `clb` once to the handle `b` itself in the world `begin`
left, and runs `done` on the world `clb` left, however `clb` ended. If `clb`
leaves the counter as it found it, the counter after `Tx` is the counter
before, and from counter 0 the `botLock("Tx")` call precedes everything `clb`
did and one `botUnlock` (then the `close`) follows it. `Tx` returns exactly
what `clb` returned provided the deferred `done` does not execute `close` on
a closed channel (after `clb` the counter is not 1, or the channel is open). -/
theorem tx_contract (b : Ref) (clb : Ref → World → Outcome (Option Error)) (w : World) :
    (Tx b clb w).world = (done b (clb b (begin b "Tx" w).2).world).world ∧
      ((clb b (begin b "Tx" w).2).world.depth b = (begin b "Tx" w).2.depth b →
        (Tx b clb w).world.depth b = w.depth b) ∧
      (w.depth b = 0 → (begin b "Tx" w).2.trace = w.trace ++ [Event.lock "Tx"]) ∧
      (w.depth b = 0 →
        (clb b (begin b "Tx" w).2).world.depth b = (begin b "Tx" w).2.depth b →
        (Tx b clb w).world.trace =
          (clb b (begin b "Tx" w).2).world.trace ++
            [Event.unlock ((clb b (begin b "Tx" w).2).world.ctl b).name, Event.close b]) ∧
      ((clb b (begin b "Tx" w).2).world.depth b ≠ 1 ∨
          ((clb b (begin b "Tx" w).2).world.ctl b).taskIsDoneCh = Chan.isOpen →
        (Tx b clb w).ret = (clb b (begin b "Tx" w).2).ret) := by
  have hlo := (w.ctl b).isTx.lo
  have hhi := (w.ctl b).isTx.hi
  have hfst : (Begin b w).1 = b := begin_fst b "Tx" w
  have hw : (Tx b clb w).world = (done b (clb b (begin b "Tx" w).2).world).world := by
    unfold Tx Done
    simp only [hfst]
    rfl
  have hret : (Tx b clb w).ret =
      (match (clb b (begin b "Tx" w).2).ret, (done b (clb b (begin b "Tx" w).2).world).ret with
        | some err, some _ => some err
        | _, _ => none) := by
    unfold Tx Done
    simp only [hfst]
    rfl
  refine ⟨hw, ?_, ?_, ?_, ?_⟩
  · intro hkeep
    rw [hw, done_depth, hkeep, begin_depth]
    exact wrap32_succ_pred _ hlo hhi
  · intro h0
    rw [begin_trace]; simp [h0]
  · intro h0 hkeep
    have h1 : (clb b (begin b "Tx" w).2).world.depth b = 1 := by
      rw [hkeep, begin_depth, h0]; decide
    rw [hw, done_trace]; simp [h1]
  · intro hok
    have hdone : (done b (clb b (begin b "Tx" w).2).world).ret = some () := by
      rw [done_ret]
      have : ¬ ((clb b (begin b "Tx" w).2).world.depth b = 1 ∧
          ((clb b (begin b "Tx" w).2).world.ctl b).taskIsDoneCh = Chan.isClosed) := by
        rintro ⟨h1, hc⟩
        rcases hok with h | h
        · exact h h1
        · rw [hc] at h; exact Chan.noConfusion h
      simp [this]
    rw [hret, hdone]
    cases (clb b (begin b "Tx" w).2).ret <;> rfl

/-- Witness of `tx_contract`: a failing callback on a fresh world. -/
theorem tx_contract_witness :
    (((fun (_ : Ref) (w : World) => (⟨w, some (some "fleet not sent")⟩ : Outcome (Option Error)))
          0 (begin 0 "Tx" World.fresh).2).world.depth 0 ≠ 1 ∨
        (((fun (_ : Ref) (w : World) =>
          (⟨w, some (some "fleet not sent")⟩ : Outcome (Option Error)))
          0 (begin 0 "Tx" World.fresh).2).world.ctl 0).taskIsDoneCh = Chan.isOpen) ∧
      (Tx 0 (fun _ w => ⟨w, some (some "fleet not sent")⟩) World.fresh).ret =
        some (some "fleet not sent") ∧
      World.fresh.depth 0 = 0 ∧
      (Tx 0 (fun _ w => ⟨w, some (some "fleet not sent")⟩) World.fresh).world.trace =
        [Event.lock "Tx", Event.unlock "Tx", Event.close 0] :=
  ⟨Or.inr (by decide),
   (tx_contract 0 (fun _ w => ⟨w, some (some "fleet not sent")⟩) World.fresh).2.2.2.2
      (Or.inr (by decide)),
   by decide,
   (tx_contract 0 (fun _ w => ⟨w, some (some "fleet not sent")⟩) World.fresh).2.2.2.1
      (by decide) (by decide)⟩

/-! ## C2: reentrancy -/

theorem nestedOp_frame (b : Ref) (o : NestedOp) (w : World) (h1 : w.depth b = 1) :
    (o.run b w).world.depth b = 1 ∧
      locks (o.run b w).world.trace = locks w.trace ∧
      unlocks (o.run b w).world.trace = unlocks w.trace ∧
      closes b (o.run b w).world.trace = closes b w.trace := by
  have hne : w.depth b ≠ 0 := by rw [h1]; decide
  cases o with
  | wrapper name method op =>
    have hf := wrapped_facts b name method (fun bot => ((), op bot)) w
    simp only [NestedOp.run]
    refine ⟨by rw [hf.1, h1], ?_, ?_, ?_⟩
    · rw [hf.2.1]; simp [hne, locks_append, locks]
    · rw [hf.2.1]; simp [hne, unlocks_append, unlocks]
    · rw [hf.2.1]; simp [hne, closes, List.count_append, List.count_cons]
  | flightTime getResearch =>
    simp only [NestedOp.run]
    cases hr : w.bot.researches with
    | some r =>
      have hf := flightTime_cached_facts getResearch (fun _ (_ : Unit) _ => (0, 0)) b () w r hr
      refine ⟨by rw [hf.2.2.2.1, h1], hf.2.1, hf.2.2.1, ?_⟩
      rw [hf.1]; simp [hne]
    | none =>
      have e2 : wrap32 (1 + 1) = 2 := by decide
      have e1 : wrap32 (2 - 1) = 1 := by decide
      have hw : (FlightTime getResearch (fun _ (_ : Unit) _ => (0, 0)) b () w).world =
          (done b ((begin b "FlightTime" w).2.call "getResearch" getResearch).2).world := by
        unfold FlightTime
        simp only [hr]
        split <;> rfl
      have hd : ((begin b "FlightTime" w).2.call "getResearch" getResearch).2.depth b = 2 := by
        rw [call_depth, begin_depth, h1, e2]
      have hd1 : ¬ ((begin b "FlightTime" w).2.call "getResearch" getResearch).2.depth b = 1 := by
        rw [hd]; decide
      rw [hw]
      refine ⟨by rw [done_depth, hd, e1], ?_, ?_, ?_⟩
      · rw [done_trace, if_neg hd1, (call_trace _ _ _).1, begin_trace, if_neg hne]
        simp [locks_append, locks]
      · rw [done_trace, if_neg hd1, (call_trace _ _ _).1, begin_trace, if_neg hne]
        simp [unlocks_append, unlocks]
      · rw [done_trace, if_neg hd1, (call_trace _ _ _).1, begin_trace, if_neg hne]
        simp [closes, List.count_append, List.count_cons]

theorem runNested_frame (b : Ref) (ops : List NestedOp) :
    ∀ w : World, w.depth b = 1 →
      (runNested b ops w).world.depth b = 1 ∧
        locks (runNested b ops w).world.trace = locks w.trace ∧
        unlocks (runNested b ops w).world.trace = unlocks w.trace ∧
        closes b (runNested b ops w).world.trace = closes b w.trace := by
  induction ops with
  | nil => intro w h1; exact ⟨h1, rfl, rfl, rfl⟩
  | cons o os ih =>
    intro w h1
    have hf := nestedOp_frame b o w h1
    simp only [runNested]
    cases (o.run b w).ret with
    | none => exact hf
    | some u =>
      have hi := ih (o.run b w).world hf.1
      exact ⟨hi.1, by rw [hi.2.1, hf.2.1], by rw [hi.2.2.1, hf.2.2.1], by rw [hi.2.2.2, hf.2.2.2]⟩

/-- C2: for every list of operations (of any length) invoked on the handle
inside a `Tx` started at counter 0, the whole transaction makes exactly one
`botLock` call and exactly one `botUnlock` call; the nested invocations
themselves make none, and the counter is back at 0 afterwards. The same
counts hold for `begin(name)`, the nested invocations, `done`. -/
theorem reentrancy (b : Ref) (ops : List NestedOp) (name : String) (w : World)
    (h0 : w.depth b = 0) :
    locks (Tx b (nestedClb ops) w).world.trace = locks w.trace + 1 ∧
      unlocks (Tx b (nestedClb ops) w).world.trace = unlocks w.trace + 1 ∧
      locks (runNested b ops (Begin b w).2).world.trace = locks (Begin b w).2.trace ∧
      unlocks (runNested b ops (Begin b w).2).world.trace = unlocks (Begin b w).2.trace ∧
      (Tx b (nestedClb ops) w).world.depth b = 0 ∧
      locks (done b (runNested b ops (begin b name w).2).world).world.trace =
        locks w.trace + 1 ∧
      unlocks (done b (runNested b ops (begin b name w).2).world).world.trace =
        unlocks w.trace + 1 := by
  have e1 : wrap32 (0 + 1) = 1 := by decide
  have e0 : wrap32 (1 - 1) = 0 := by decide
  have hn1 : (begin b name w).2.depth b = 1 := by rw [begin_depth, h0, e1]
  have hnt : (begin b name w).2.trace = w.trace ++ [Event.lock name] := by
    rw [begin_trace, if_pos h0]
  have hg := runNested_frame b ops (begin b name w).2 hn1
  have hb1 : (Begin b w).2.depth b = 1 := by
    unfold Begin; rw [begin_depth, h0, e1]
  have hbt : (Begin b w).2.trace = w.trace ++ [Event.lock "Tx"] := by
    unfold Begin; rw [begin_trace, if_pos h0]
  have hf := runNested_frame b ops (Begin b w).2 hb1
  have hfst : (Begin b w).1 = b := begin_fst b "Tx" w
  have hw : (Tx b (nestedClb ops) w).world =
      (done b (runNested b ops (Begin b w).2).world).world := by
    unfold Tx Done nestedClb
    simp only [hfst]
  refine ⟨?_, ?_, hf.2.1, hf.2.2.1, ?_, ?_, ?_⟩
  · rw [hw, done_trace, if_pos hf.1, locks_append, hf.2.1, hbt, locks_append]
    simp [locks]
  · rw [hw, done_trace, if_pos hf.1, unlocks_append, hf.2.2.1, hbt, unlocks_append]
    simp [unlocks]
  · rw [hw, done_depth, hf.1, e0]
  · rw [done_trace, if_pos hg.1, locks_append, hg.2.1, hnt, locks_append]
    simp [locks]
  · rw [done_trace, if_pos hg.1, unlocks_append, hg.2.2.1, hnt, unlocks_append]
    simp [unlocks]

/-- Witness of `reentrancy`: five nested operations on a fresh world. -/
theorem reentrancy_witness :
    World.fresh.depth 0 = 0 ∧
      locks (Tx 0 (nestedClb [NestedOp.wrapper "GetShips" "getShips" id,
          NestedOp.flightTime (fun bot => (⟨6⟩, { bot with researches := some ⟨6⟩ })),
          NestedOp.wrapper "SendFleet" "sendFleet" id,
          NestedOp.flightTime (fun bot => (⟨6⟩, bot)),
          NestedOp.wrapper "GetFleets" "getFleets" id]) World.fresh).world.trace =
        locks World.fresh.trace + 1 :=
  ⟨by decide,
   (reentrancy 0 [NestedOp.wrapper "GetShips" "getShips" id,
      NestedOp.flightTime (fun bot => (⟨6⟩, { bot with researches := some ⟨6⟩ })),
      NestedOp.wrapper "SendFleet" "sendFleet" id,
      NestedOp.flightTime (fun bot => (⟨6⟩, bot)),
      NestedOp.wrapper "GetFleets" "getFleets" id] "EnsureFleet" World.fresh (by decide)).1⟩

/-! ## C1: mutual exclusion between two callers -/

theorem inside_update (w : World) (pc : Caller → PC) (c d : Caller) (p : PC) :
    (Sys.mk w (Function.update pc c p)).inside d =
      if d = c then (p == PC.entered || p == PC.worked) else (Sys.mk w pc).inside d := by
  by_cases h : d = c
  · subst h; simp [Sys.inside]
  · simp [Sys.inside, Function.update_noteq h, h]

theorem handle_ne (handle : Caller → Ref) (hne : handle Caller.first ≠ handle Caller.second)
    (c d : Caller) (h : d ≠ c) : handle d ≠ handle c := by
  cases c <;> cases d
  · exact absurd rfl h
  · exact fun e => hne e.symm
  · exact hne
  · exact absurd rfl h

theorem step_inv (handle : Caller → Ref) (name : Caller → String) (op : Caller → OGame → OGame)
    (hne : handle Caller.first ≠ handle Caller.second)
    (hop : ∀ c bot, (op c bot).locked = bot.locked)
    (c : Caller) (s : Sys) (hI : s.Inv handle) : (Sys.step handle name op c s).Inv handle := by
  obtain ⟨hout, hin⟩ := hI
  unfold Sys.step
  cases hpc : s.pc c with
  | idle =>
    simp only
    have hc : s.inside c = false := by simp [Sys.inside, hpc]
    have h0 : s.world.depth (handle c) = 0 := hout c hc
    by_cases hblk : beginBlocks (handle c) s.world = true
    · rw [if_pos hblk]; exact ⟨hout, hin⟩
    · rw [if_neg hblk]
      have hfree : s.world.bot.locked = false := by
        have h1 : ((s.world.ctl (handle c)).isTx.add 1).toInt = 1 :=
          (Int32.add_one_eq_one _).2 h0
        cases hl : s.world.bot.locked with
        | false => rfl
        | true => exact absurd (by simp [beginBlocks, h1, hl]) hblk
      have hnone : ∀ d, s.inside d = false := by
        intro d
        cases hd : s.inside d with
        | false => rfl
        | true => rw [(hin d hd).2.1] at hfree; exact Bool.noConfusion hfree
      constructor
      · intro d hd
        rw [inside_update] at hd
        by_cases hdc : d = c
        · rw [if_pos hdc] at hd; exact absurd hd (by decide)
        · show (begin (handle c) (name c) s.world).2.depth (handle d) = 0
          unfold World.depth
          rw [begin_other _ _ _ _ (handle_ne handle hne c d hdc)]
          exact hout d (hnone d)
      · intro d hd
        rw [inside_update] at hd
        by_cases hdc : d = c
        · subst hdc
          refine ⟨?_, ?_, ?_⟩
          · show (begin (handle d) (name d) s.world).2.depth (handle d) = 1
            rw [begin_depth, h0]; decide
          · show (begin (handle d) (name d) s.world).2.bot.locked = true
            rw [begin_bot, if_pos h0]; rfl
          · intro e he
            rw [inside_update, if_neg he]
            exact hnone e
        · rw [if_neg hdc] at hd
          have hd2 : s.inside d = true := hd
          rw [hnone d] at hd2; exact Bool.noConfusion hd2
  | entered =>
    simp only
    have hc : s.inside c = true := by simp [Sys.inside, hpc]
    have hsame : ∀ d, (Sys.mk (s.world.call (name c) (fun bot => ((), op c bot))).2
        (Function.update s.pc c PC.worked)).inside d = s.inside d := by
      intro d
      rw [inside_update]
      by_cases hdc : d = c
      · rw [if_pos hdc, hdc, hc]; rfl
      · rw [if_neg hdc]; rfl
    constructor
    · intro d hd
      rw [hsame] at hd
      exact hout d hd
    · intro d hd
      rw [hsame] at hd
      refine ⟨(hin d hd).1, ?_, ?_⟩
      · show (op c s.world.bot).locked = true
        rw [hop]; exact (hin d hd).2.1
      · intro e he
        rw [hsame]; exact (hin d hd).2.2 e he
  | worked =>
    simp only
    have hc : s.inside c = true := by simp [Sys.inside, hpc]
    have h1 : s.world.depth (handle c) = 1 := (hin c hc).1
    have hothers : ∀ d, d ≠ c → s.inside d = false := (hin c hc).2.2
    have hnone : ∀ d, (Sys.mk (done (handle c) s.world).world
        (Function.update s.pc c PC.finished)).inside d = false := by
      intro d
      rw [inside_update]
      by_cases hdc : d = c
      · rw [if_pos hdc]; rfl
      · rw [if_neg hdc]; exact hothers d hdc
    constructor
    · intro d _
      by_cases hdc : d = c
      · subst hdc
        show (done (handle d) s.world).world.depth (handle d) = 0
        rw [done_depth, h1]; decide
      · show (done (handle c) s.world).world.depth (handle d) = 0
        unfold World.depth
        rw [done_other _ _ _ (handle_ne handle hne c d hdc)]
        exact hout d (hothers d hdc)
    · intro d hd
      rw [hnone d] at hd; exact Bool.noConfusion hd
  | finished => exact ⟨hout, hin⟩

theorem run_inv (handle : Caller → Ref) (name : Caller → String) (op : Caller → OGame → OGame)
    (hne : handle Caller.first ≠ handle Caller.second)
    (hop : ∀ c bot, (op c bot).locked = bot.locked) (sched : List Caller) :
    ∀ s : Sys, s.Inv handle → (Sys.run handle name op sched s).Inv handle := by
  induction sched with
  | nil => intro s hI; exact hI
  | cons c cs ih => intro s hI; exact ih _ (step_inv handle name op hne hop c s hI)

/-- C1, as stated, fails when the two callers share one controller (one
counter): after the first caller's `begin` the counter is 1, so the second
caller's `begin` is taken for a nested one, calls no `botLock`, and both
callers are between their `begin` and their `done`. -/
theorem mutual_exclusion_counterexample :
    World.fresh.depth 0 = 0 ∧
      (Sys.run (fun _ => 0) (fun _ => "GetShips") (fun _ => id)
        [Caller.first, Caller.second] (Sys.start World.fresh)).bothInside = true ∧
      (Sys.run (fun _ => 0) (fun _ => "GetShips") (fun _ => id)
        [Caller.first, Caller.second] (Sys.start World.fresh)).world.trace =
          [Event.lock "GetShips"] := by
  decide

/-- C1 (amended): two callers that use two distinct controllers on the same
session, both counters 0 and the session mutex free at the start, with session
calls that leave the mutex alone: after every schedule of their atomic steps
it is not the case that both callers are between their `begin` and their
`done`. -/
theorem mutual_exclusion (handle : Caller → Ref) (name : Caller → String)
    (op : Caller → OGame → OGame) (w : World) (sched : List Caller)
    (hne : handle Caller.first ≠ handle Caller.second)
    (h1 : w.depth (handle Caller.first) = 0) (h2 : w.depth (handle Caller.second) = 0)
    (hop : ∀ c bot, (op c bot).locked = bot.locked) :
    (Sys.run handle name op sched (Sys.start w)).bothInside = false := by
  have hstart : (Sys.start w).Inv handle := by
    constructor
    · intro c _
      cases c
      · exact h1
      · exact h2
    · intro c hc
      simp [Sys.start, Sys.inside] at hc
  have hI := run_inv handle name op hne hop sched _ hstart
  cases hb : (Sys.run handle name op sched (Sys.start w)).bothInside with
  | false => rfl
  | true =>
    simp only [Sys.bothInside, Bool.and_eq_true] at hb
    have := (hI.2 Caller.first hb.1).2.2 Caller.second (by decide)
    rw [this] at hb
    exact absurd hb.2 (by decide)

/-- Witness of `mutual_exclusion`: callers on the controllers 0 and 1; the
second caller's `begin` waits while the first is inside. -/
theorem mutual_exclusion_witness :
    ((fun c => if c = Caller.first then 0 else 1) Caller.first : Ref) ≠
        (fun c => if c = Caller.first then 0 else 1) Caller.second ∧
      World.fresh.depth 0 = 0 ∧ World.fresh.depth 1 = 0 ∧
      (Sys.run (fun c => if c = Caller.first then 0 else 1) (fun _ => "GetShips") (fun _ => id)
        [Caller.first, Caller.second, Caller.second, Caller.first]
        (Sys.start World.fresh)).bothInside = false :=
  ⟨by decide, by decide, by decide,
   mutual_exclusion (fun c => if c = Caller.first then 0 else 1) (fun _ => "GetShips")
     (fun _ => id) World.fresh [Caller.first, Caller.second, Caller.second, Caller.first]
     (by decide) (by decide) (by decide) (fun _ _ => rfl)⟩

end Ogame
